import Mathlib

/-!
# Verification of the spendalert event-buffering / claim / idempotent-merge core

This development shallowly embeds the coordination core of the spendalert
repository and proves (or refutes) the frozen claims about it.

Embedded source functions (names kept where Lean allows):

* `upsertTransaction`, `deleteTransaction` — the Plaid sync merge step
  (`db.insert(...).onConflictDoUpdate` / `db.delete`), including the
  `alertedAt` inheritance from a superseded pending transaction.
* `tryClaimTransactionForAlert`, `unmarkTransactionAlerted`,
  `markTransactionAlerted` — the alert-once claim and its rollback.
* `getUnalertedSpendingTransactions` — the fresh-state selection of
  alert-eligible rows.
* the alert loop of `transactionSyncWorkflow` (step 8) and the
  cursor/merge step ordering of the same workflow (steps 3–6).
* `sendTransactionAlertWorkflow` and `processNewTransactions` — modelled as
  effect traces (which transactions reach AI generation / dispatch).
* `bufferMessage` and `processBufferedMessages` from the Loop webhook route —
  the message debounce buffer and its claim step, with the claim split into
  its two database round trips (`claimSelect` then `claimMark`) exactly as
  the source performs them.

The relational store is modelled as `String → Option Row` for the
`transactions` table (keyed by primary key, which is how every query in the
source addresses it) and as a `List PMRow` for the `pending_messages` table
(whose queries scan with `limit 1`, so row order models scan order).
Timestamps are `Nat` milliseconds; the JSON round trip of the buffered
message list is modelled as the list itself.
-/

/-- `tx.personal_finance_category` sub-object as read by the sync code. -/
structure PFCategory where
  primary : String
  detailed : String
  deriving DecidableEq

/-- `tx.location` sub-object as read by the sync code. -/
structure TxLocation where
  address : Option String
  city : Option String
  region : Option String
  postal_code : Option String
  country : Option String
  lat : Option Int
  lon : Option Int
  store_number : Option String
  deriving DecidableEq

/-- The fields of a Plaid `Transaction` that `upsertTransaction` reads.
`amount` is an exact number (the source stores it as a decimal string and
compares it with `CAST(... AS DECIMAL)`). -/
structure PlaidTx where
  transaction_id : String
  account_id : String
  amount : Int
  iso_currency_code : Option String
  date : String
  datetime : Option String
  name : String
  merchant_name : Option String
  merchant_entity_id : Option String
  logo_url : Option String
  website : Option String
  payment_channel : String
  personal_finance_category : Option PFCategory
  personal_finance_category_icon_url : Option String
  pending : Bool
  pending_transaction_id : Option String
  account_owner : Option String
  transaction_code : Option String
  location : Option TxLocation
  deriving DecidableEq

/-- A row of the `transactions` table, with every column the sync and alert
code touches.  `alertedAt` is the alert-once claim flag (`notified_at` in the
spec's vocabulary). -/
structure Row where
  id : String
  accountId : String
  itemId : String
  amount : Int
  isoCurrencyCode : Option String
  date : String
  datetime : Option String
  name : String
  merchantName : Option String
  merchantEntityId : Option String
  logoUrl : Option String
  website : Option String
  paymentChannel : String
  primaryCategory : Option String
  detailedCategory : Option String
  categoryIconUrl : Option String
  pending : Bool
  pendingTransactionId : Option String
  accountOwner : Option String
  transactionCode : Option String
  locationAddress : Option String
  locationCity : Option String
  locationRegion : Option String
  locationPostalCode : Option String
  locationCountry : Option String
  locationLat : Option Int
  locationLon : Option Int
  locationStoreNumber : Option String
  alertedAt : Option Nat
  createdAt : Nat
  updatedAt : Nat
  deriving DecidableEq

/-- The `transactions` table, keyed by its primary key `id`. -/
abbrev TxStore : Type := String → Option Row

/-- The row written by the insert arm of `upsertTransaction`
(`.values(values)` plus the schema defaults for `createdAt`/`updatedAt`);
`inh` is the `inheritedAlertedAt` computed from the superseded pending
transaction. -/
def insertRow (now : Nat) (itemId : String) (tx : PlaidTx) (inh : Option Nat) : Row where
  id := tx.transaction_id
  accountId := tx.account_id
  itemId := itemId
  amount := tx.amount
  isoCurrencyCode := tx.iso_currency_code
  date := tx.date
  datetime := tx.datetime
  name := tx.name
  merchantName := tx.merchant_name
  merchantEntityId := tx.merchant_entity_id
  logoUrl := tx.logo_url
  website := tx.website
  paymentChannel := tx.payment_channel
  primaryCategory := tx.personal_finance_category.map PFCategory.primary
  detailedCategory := tx.personal_finance_category.map PFCategory.detailed
  categoryIconUrl := tx.personal_finance_category_icon_url
  pending := tx.pending
  pendingTransactionId := tx.pending_transaction_id
  accountOwner := tx.account_owner
  transactionCode := tx.transaction_code
  locationAddress := tx.location.bind TxLocation.address
  locationCity := tx.location.bind TxLocation.city
  locationRegion := tx.location.bind TxLocation.region
  locationPostalCode := tx.location.bind TxLocation.postal_code
  locationCountry := tx.location.bind TxLocation.country
  locationLat := tx.location.bind TxLocation.lat
  locationLon := tx.location.bind TxLocation.lon
  locationStoreNumber := tx.location.bind TxLocation.store_number
  alertedAt := inh
  createdAt := now
  updatedAt := now

/-- The row written by the `onConflictDoUpdate` arm of `upsertTransaction`:
exactly the columns listed in its `set` clause are overwritten from the
incoming record; `alertedAt`, `createdAt`, `accountId`, `itemId`,
`isoCurrencyCode`, `accountOwner` and `transactionCode` are preserved
(the source comment: we do not update `alertedAt` on conflict). -/
def conflictUpdate (now : Nat) (tx : PlaidTx) (r : Row) : Row :=
  { r with
    amount := tx.amount
    date := tx.date
    datetime := tx.datetime
    name := tx.name
    merchantName := tx.merchant_name
    merchantEntityId := tx.merchant_entity_id
    logoUrl := tx.logo_url
    website := tx.website
    paymentChannel := tx.payment_channel
    primaryCategory := tx.personal_finance_category.map PFCategory.primary
    detailedCategory := tx.personal_finance_category.map PFCategory.detailed
    categoryIconUrl := tx.personal_finance_category_icon_url
    pending := tx.pending
    pendingTransactionId := tx.pending_transaction_id
    locationAddress := tx.location.bind TxLocation.address
    locationCity := tx.location.bind TxLocation.city
    locationRegion := tx.location.bind TxLocation.region
    locationPostalCode := tx.location.bind TxLocation.postal_code
    locationCountry := tx.location.bind TxLocation.country
    locationLat := tx.location.bind TxLocation.lat
    locationLon := tx.location.bind TxLocation.lon
    locationStoreNumber := tx.location.bind TxLocation.store_number
    updatedAt := now }

/-- The `inheritedAlertedAt` lookup of `upsertTransaction`: when the incoming
record carries a `pending_transaction_id`, read that row's `alertedAt`
(the truthiness check `if (pendingTx?.alertedAt)` collapses to the value
itself, since a missing row and a null flag both yield null). -/
def inheritedAlertedAt (s : TxStore) (tx : PlaidTx) : Option Nat :=
  match tx.pending_transaction_id with
  | some pid =>
    match s pid with
    | some pr => pr.alertedAt
    | none => none
  | none => none

/-- `upsertTransaction` (transaction-sync workflow version): insert the row
if its id is absent, otherwise apply the conflict update; a fresh insert
inherits `alertedAt` from the superseded pending transaction. -/
def upsertTransaction (now : Nat) (itemId : String) (tx : PlaidTx) (s : TxStore) : TxStore :=
  let inh := inheritedAlertedAt s tx
  fun k =>
    if k = tx.transaction_id then
      match s tx.transaction_id with
      | none => some (insertRow now itemId tx inh)
      | some r => some (conflictUpdate now tx r)
    else s k

/-- `deleteTransaction`: hard delete by primary key. -/
def deleteTransaction (transactionId : String) (s : TxStore) : TxStore :=
  fun k => if k = transactionId then none else s k

/-- One full merge of a sync batch: steps 4–6 of `transactionSyncWorkflow`
(upsert every added record, then every modified record, then delete every
removed id, in source order). -/
def applyBatch (now : Nat) (itemId : String)
    (added modified : List PlaidTx) (removed : List String) (s : TxStore) : TxStore :=
  let s1 := added.foldl (fun st tx => upsertTransaction now itemId tx st) s
  let s2 := modified.foldl (fun st tx => upsertTransaction now itemId tx st) s1
  removed.foldl (fun st i => deleteTransaction i st) s2

/-- `markTransactionAlerted`: unconditional `UPDATE ... SET alertedAt = now()
WHERE id = ?`. -/
def markTransactionAlerted (now : Nat) (transactionId : String) (s : TxStore) : TxStore :=
  fun k =>
    if k = transactionId then (s k).map (fun r => { r with alertedAt := some now })
    else s k

/-- `unmarkTransactionAlerted`: unconditional `UPDATE ... SET alertedAt = NULL
WHERE id = ?`, the failure rollback of the claim. -/
def unmarkTransactionAlerted (transactionId : String) (s : TxStore) : TxStore :=
  fun k =>
    if k = transactionId then (s k).map (fun r => { r with alertedAt := none })
    else s k

/-- `tryClaimTransactionForAlert`: first the conditional update
`SET alertedAt = now() WHERE id = ? AND alertedAt IS NULL`, then — because
the source does not read the affected-row count — a re-read of the row, and
the returned flag is the JavaScript truth value of `tx?.alertedAt !== null`
(a missing row gives `undefined !== null`, which is `true`).
Returns the flag and the updated store. -/
def tryClaimTransactionForAlert (now : Nat) (transactionId : String) (s : TxStore) :
    Bool × TxStore :=
  let s1 : TxStore := fun k =>
    if k = transactionId then
      match s k with
      | some r => if r.alertedAt = none then some { r with alertedAt := some now } else some r
      | none => none
    else s k
  let claimed : Bool :=
    match s1 transactionId with
    | some r => r.alertedAt.isSome
    | none => true
  (claimed, s1)

/-- `getUnalertedSpendingTransactions`: select the rows whose id is in the
given list, whose amount is strictly positive and whose `alertedAt` is null.
(The source's `WHERE id IN (..) AND CAST(amount AS DECIMAL) > 0 AND
alertedAt IS NULL` returns exactly the rows this list contains, one per
stored id.) -/
def getUnalertedSpendingTransactions (transactionIds : List String) (s : TxStore) : List Row :=
  if transactionIds = [] then []
  else
    transactionIds.filterMap fun i =>
      match s i with
      | some r => if 0 < r.amount ∧ r.alertedAt = none then some r else none
      | none => none

/-- One iteration of the alert loop in step 8 of `transactionSyncWorkflow`:
claim the transaction, attempt the alert (`send` abstracts
`sendSingleTransactionAlert`, which reports `false` when no alert was
delivered), and roll the claim back when the attempt fails; a lost claim
skips the transaction. -/
def alertStepFn (now : Nat) (send : Row → Bool) (st : TxStore) (tx : Row) : TxStore :=
  let res := tryClaimTransactionForAlert now tx.id st
  if res.1 then
    if send tx then res.2 else unmarkTransactionAlerted tx.id res.2
  else res.2

/-- Step 8 of `transactionSyncWorkflow`: run the claim/send/rollback
iteration over every selected transaction in order. -/
def alertLoop (now : Nat) (send : Row → Bool) (txs : List Row) (s : TxStore) : TxStore :=
  txs.foldl (alertStepFn now send) s

/-- The upsert phase of a merge (steps 4–5 run the added and the modified
records through `upsertTransaction` in order). -/
def applyUpserts (now : Nat) (itemId : String) (txs : List PlaidTx) (s : TxStore) : TxStore :=
  txs.foldl (fun st tx => upsertTransaction now itemId tx st) s

/-- The removal phase of a merge (step 6). -/
def applyDeletes (removed : List String) (s : TxStore) : TxStore :=
  removed.foldl (fun st i => deleteTransaction i st) s

/-- The action of an upsert list on one already-present row with key `k`:
every upsert whose id is `k` takes the conflict arm. -/
def chainMerge (now : Nat) (k : String) (txs : List PlaidTx) (r : Row) : Row :=
  txs.foldl (fun acc tx => if tx.transaction_id = k then conflictUpdate now tx acc else acc) r

/-- The last record in an upsert list carrying the given transaction id. -/
def lastUpsertAt : List PlaidTx → String → Option PlaidTx
  | [], _ => none
  | tx :: txs, k =>
    match lastUpsertAt txs k with
    | some u => some u
    | none => if tx.transaction_id = k then some tx else none

/-! ## The sync workflow's cursor/merge ordering (steps 3–6)

`transactionSyncWorkflow` first fetches the whole paginated batch
(`syncTransactionsFromPlaid`), then runs a sequence of durable steps against
the store.  We model the store-mutating steps after the fetch as an explicit
operation list so that a crash is "stop after a prefix": step 3 writes the
cursor (the source comment: update the cursor IMMEDIATELY, before processing
transactions), steps 4–5 upsert added and modified records, step 6 deletes
removed records. -/

/-- The result of the paginated fetch loop `syncTransactionsFromPlaid`. -/
structure SyncResult where
  added : List PlaidTx
  modified : List PlaidTx
  removed : List String
  cursor : Option String

/-- Database state touched by the sync workflow: the item's sync cursor and
the transactions table. -/
structure SyncState where
  cursor : Option String
  store : TxStore

/-- One durable store-mutating step of the sync workflow. -/
inductive SyncOp where
  | setCursor (c : String)
  | upsert (tx : PlaidTx)
  | remove (transactionId : String)

/-- The workflow's own step order: cursor first (`if (syncResult.cursor)
await updatePlaidItemCursor(...)`), then added upserts, then modified
upserts, then removals. -/
def syncOps (res : SyncResult) : List SyncOp :=
  (match res.cursor with
   | some c => [SyncOp.setCursor c]
   | none => []) ++
  res.added.map SyncOp.upsert ++
  res.modified.map SyncOp.upsert ++
  res.removed.map SyncOp.remove

/-- Effect of one sync step on the database state. -/
def applySyncOp (now : Nat) (itemId : String) (st : SyncState) : SyncOp → SyncState
  | SyncOp.setCursor c => { st with cursor := some c }
  | SyncOp.upsert tx => { st with store := upsertTransaction now itemId tx st.store }
  | SyncOp.remove i => { st with store := deleteTransaction i st.store }

/-- Execution of the sync workflow's store-mutating steps that crashes after
the first `k` of them (running all of them is `k` large enough). -/
def runSyncPrefix (now : Nat) (itemId : String) (res : SyncResult) (k : Nat)
    (st : SyncState) : SyncState :=
  ((syncOps res).take k).foldl (applySyncOp now itemId) st

/-! ## Alert dispatch paths as effect traces

`sendTransactionAlertWorkflow` and `processNewTransactions` write nothing to
the transactions table; what the claims constrain is which transactions they
hand to AI alert generation (`generateSingleTransactionAlert`) and to the
notification dispatcher (`sendTransactionAlert`).  We record those calls as
an effect trace.  `gen` abstracts the AI generator; the source treats an
empty string as "no alert" (`if (!alertMessage) ... skip`). -/

inductive AlertStep where
  | genCall (transactionId : String)
  | dispatched (transactionId : String) (message : String)
  deriving DecidableEq

/-- The effect trace of `sendTransactionAlertWorkflow` on one transaction:
non-spending transactions (`amount <= 0`) return before any step runs;
otherwise the AI generator is called, and its non-empty message is sent. -/
def sendTransactionAlertWorkflow (gen : Row → String) (tx : Row) : List AlertStep :=
  if tx.amount ≤ 0 then []
  else
    let alertMessage := gen tx
    if alertMessage = "" then [AlertStep.genCall tx.id]
    else [AlertStep.genCall tx.id, AlertStep.dispatched tx.id alertMessage]

/-- Per-transaction body of the loop in `processNewTransactions`. -/
def alertStepsFor (gen : Row → String) (tx : Row) : List AlertStep :=
  let alertMessage := gen tx
  if alertMessage = "" then [AlertStep.genCall tx.id]
  else [AlertStep.genCall tx.id, AlertStep.dispatched tx.id alertMessage]

/-- The effect trace of `processNewTransactions`: filter to spending
transactions (strictly positive amount), then alert each in turn. -/
def processNewTransactions (gen : Row → String) (newTransactions : List Row) :
    List AlertStep :=
  (newTransactions.filter (fun tx => 0 < tx.amount)).flatMap (alertStepsFor gen)

/-! ## The Loop webhook message buffer (debounce + batch claim)

`pending_messages` rows hold a whole wave of messages for one phone number
as a JSON list; we model the parsed list directly.  The table is a `List`
of rows, in scan order, since both queries use `limit 1`. -/

/-- One buffered inbound message, as serialized into the buffer row. -/
structure BufferedMessage where
  text : String
  messageId : String
  timestamp : Nat
  imageUrls : Option (List String)
  isReaction : Option Bool
  reactionType : Option String
  deriving DecidableEq

/-- A `pending_messages` row.  `processedAt` is the claim flag
(`claimed_at` in the spec's vocabulary); `processingAt` is the debounce
deadline. -/
structure PMRow where
  id : String
  phoneNumber : String
  messages : List BufferedMessage
  processingAt : Nat
  processedAt : Option Nat
  createdAt : Nat
  updatedAt : Nat
  deriving DecidableEq

abbrev MsgStore : Type := List PMRow

/-- `DEBOUNCE_DELAY_MS` from the webhook route. -/
def DEBOUNCE_DELAY_MS : Nat := 2000

/-- `bufferMessage`: look for an unprocessed buffer row for the phone number
(`WHERE phoneNumber = ? AND processedAt IS NULL LIMIT 1`); if one exists,
append the new message to its list and push `processingAt` to
`now + DEBOUNCE_DELAY_MS`; otherwise insert a fresh row (`newId` stands for
the generated uuid). -/
def bufferMessage (now : Nat) (newId : String) (phoneNumber text messageId : String)
    (imageUrls : Option (List String)) (isReaction : Option Bool)
    (reactionType : Option String) (s : MsgStore) : MsgStore :=
  let processingTime := now + DEBOUNCE_DELAY_MS
  let newMessage : BufferedMessage :=
    { text := text, messageId := messageId, timestamp := now,
      imageUrls := imageUrls, isReaction := isReaction, reactionType := reactionType }
  match s.find? (fun b => b.phoneNumber == phoneNumber && b.processedAt.isNone) with
  | some buffer =>
    s.map fun b =>
      if b.id = buffer.id then
        { b with
          messages := b.messages ++ [newMessage]
          processingAt := processingTime
          updatedAt := now }
      else b
  | none =>
    s ++ [{ id := newId, phoneNumber := phoneNumber, messages := [newMessage],
            processingAt := processingTime, processedAt := none,
            createdAt := now, updatedAt := now }]

/-- The select round trip of `processBufferedMessages`:
`WHERE phoneNumber = ? AND processedAt IS NULL AND processingAt < now
LIMIT 1`. -/
def claimSelect (now : Nat) (phoneNumber : String) (s : MsgStore) : Option PMRow :=
  s.find? fun b =>
    b.phoneNumber == phoneNumber && b.processedAt.isNone && decide (b.processingAt < now)

/-- The mark round trip of `processBufferedMessages`:
`UPDATE pending_messages SET processedAt = now WHERE id = ?` — by id only,
with no condition on `processedAt`. -/
def claimMark (now : Nat) (buffer : PMRow) (s : MsgStore) : MsgStore :=
  s.map fun b => if b.id = buffer.id then { b with processedAt := some now } else b

/-- `processBufferedMessages`, restricted to its store effects: run the
select; when no ready buffer exists, return without any batch or store
change; otherwise mark the found buffer processed and hand its message list
downstream.  The returned `Option` is the batch this caller obtained. -/
def processBufferedMessages (now : Nat) (phoneNumber : String) (s : MsgStore) :
    Option (List BufferedMessage) × MsgStore :=
  match claimSelect now phoneNumber s with
  | none => (none, s)
  | some buffer => (some buffer.messages, claimMark now buffer s)

/-- Two callers of `processBufferedMessages` whose select steps both run
before either mark step (the interleaving the webhook's
`setTimeout`-scheduled processors can produce, as nothing orders the two
database round trips of distinct callers). -/
def twoCallerOverlappedClaim (nowA nowB : Nat) (phoneNumber : String) (s : MsgStore) :
    Option (List BufferedMessage) × Option (List BufferedMessage) × MsgStore :=
  let selA := claimSelect nowA phoneNumber s
  let selB := claimSelect nowB phoneNumber s
  let s1 := match selA with
    | some b => claimMark nowA b s
    | none => s
  let s2 := match selB with
    | some b => claimMark nowB b s1
    | none => s1
  (selA.map PMRow.messages, selB.map PMRow.messages, s2)

/-! ## A sustained burst against the debounce buffer

For the max-wait claim we replay the webhook's own schedule on one phone
number: an inbound message arrives every 1900 ms (the debounce window is
2000 ms), and every arrival schedules a `processBufferedMessages` check
2100 ms later (`DEBOUNCE_DELAY_MS + 100`).  In time order the actions are
arrival 0 (t=0), arrival 1 (t=1900), check 0 (t=2100), arrival 2 (t=3800),
check 1 (t=4000), …: check `k` (t=1900k+2100) always lands between arrival
`k+1` (t=1900k+1900) and arrival `k+2` (t=1900k+3800). -/

/-- Store state after arrivals `0..k` and checks `0..k-1` of the sustained
burst. -/
def burstState : Nat → MsgStore
  | 0 => bufferMessage 0 "b0" "p" "hi" "m" none none none []
  | k + 1 =>
    (processBufferedMessages (1900 * k + 2100) "p"
      (bufferMessage (1900 * (k + 1)) "b0" "p" "hi" "m" none none none
        (burstState k))).2

/-- The message the burst's arrival `i` buffers. -/
def burstMsg (i : Nat) : BufferedMessage :=
  { text := "hi", messageId := "m", timestamp := 1900 * i,
    imageUrls := none, isReaction := none, reactionType := none }

/-- The message list accumulated after arrivals `0..k`. -/
def burstMsgs : Nat → List BufferedMessage
  | 0 => [burstMsg 0]
  | k + 1 => burstMsgs k ++ [burstMsg (k + 1)]

/-- Closed form of the single buffer row the burst maintains: still
unclaimed, holding every arrival so far, with the debounce deadline pushed
2000 ms past the latest arrival. -/
def burstRow (k : Nat) : PMRow :=
  { id := "b0", phoneNumber := "p", messages := burstMsgs k,
    processingAt := 1900 * k + 2000, processedAt := none,
    createdAt := 0, updatedAt := 1900 * k }

/-! ## Concrete sample values for witnesses and counterexamples -/

/-- A transactions-table row with the given id, amount and claim flag;
every other column is a fixed innocuous constant. -/
def sampleRow (id : String) (amount : Int) (alerted : Option Nat) : Row :=
  { id := id, accountId := "acc1", itemId := "item1", amount := amount,
    isoCurrencyCode := some "USD", date := "2024-01-02", datetime := none,
    name := "Coffee Shop", merchantName := some "Coffee Shop",
    merchantEntityId := none, logoUrl := none, website := none,
    paymentChannel := "in store", primaryCategory := none,
    detailedCategory := none, categoryIconUrl := none, pending := false,
    pendingTransactionId := none, accountOwner := none,
    transactionCode := none, locationAddress := none, locationCity := none,
    locationRegion := none, locationPostalCode := none,
    locationCountry := none, locationLat := none, locationLon := none,
    locationStoreNumber := none, alertedAt := alerted, createdAt := 0,
    updatedAt := 0 }

/-- An incoming Plaid record with the given id, amount and
`pending_transaction_id` back-reference. -/
def samplePlaidTx (id : String) (amount : Int) (supersedes : Option String) : PlaidTx :=
  { transaction_id := id, account_id := "acc1", amount := amount,
    iso_currency_code := some "USD", date := "2024-01-02", datetime := none,
    name := "Coffee Shop", merchant_name := some "Coffee Shop",
    merchant_entity_id := none, logo_url := none, website := none,
    payment_channel := "in store", personal_finance_category := none,
    personal_finance_category_icon_url := none, pending := false,
    pending_transaction_id := supersedes, account_owner := none,
    transaction_code := none, location := none }

/-- A transactions table holding exactly the given rows. -/
def storeOf (rows : List Row) : TxStore :=
  fun k => rows.find? (fun r => r.id == k)

/-- A buffered message with the given timestamp and fixed text. -/
def sampleMsg (t : Nat) : BufferedMessage :=
  { text := "hello", messageId := "m1", timestamp := t,
    imageUrls := none, isReaction := none, reactionType := none }

/-- A single waiting (unclaimed, past-deadline at `now = 3000`) buffer row
for phone number `p`. -/
def sampleBuffer : PMRow :=
  { id := "b1", phoneNumber := "p", messages := [sampleMsg 0],
    processingAt := 2000, processedAt := none, createdAt := 0, updatedAt := 0 }

/-- At most one unclaimed buffer row per phone number — the shape
`bufferMessage` maintains (it appends to an existing unclaimed row instead
of inserting a second one). -/
abbrev atMostOneUnclaimed (phoneNumber : String) (s : MsgStore) : Prop :=
  ∀ b1 ∈ s, ∀ b2 ∈ s,
    b1.phoneNumber = phoneNumber → b1.processedAt = none →
    b2.phoneNumber = phoneNumber → b2.processedAt = none → b1 = b2

/-- `sampleBuffer` after being claimed at time 3000. -/
def claimedSampleStore : MsgStore :=
  [{ sampleBuffer with processedAt := some 3000 }]

/-! # Helper lemmas -/

theorem upsertTransaction_other (now : Nat) (itemId : String) (tx : PlaidTx)
    (s : TxStore) (k : String) (hk : k ≠ tx.transaction_id) :
    upsertTransaction now itemId tx s k = s k := by
  simp [upsertTransaction, hk]

theorem deleteTransaction_other (i : String) (s : TxStore) (k : String) (hk : k ≠ i) :
    deleteTransaction i s k = s k := by
  simp [deleteTransaction, hk]

theorem applyUpserts_other (now : Nat) (itemId : String) :
    ∀ (txs : List PlaidTx) (s : TxStore) (k : String),
      (∀ tx ∈ txs, tx.transaction_id ≠ k) →
      applyUpserts now itemId txs s k = s k := by
  intro txs
  induction txs with
  | nil => intro s k _; rfl
  | cons t rest ih =>
    intro s k h
    have ht : t.transaction_id ≠ k := h t (List.mem_cons_self t rest)
    have hrest : ∀ tx ∈ rest, tx.transaction_id ≠ k :=
      fun tx htx => h tx (List.mem_cons_of_mem t htx)
    calc applyUpserts now itemId (t :: rest) s k
        = applyUpserts now itemId rest (upsertTransaction now itemId t s) k := rfl
      _ = upsertTransaction now itemId t s k := ih _ k hrest
      _ = s k := upsertTransaction_other now itemId t s k (fun he => ht he.symm)

theorem upsertTransaction_self (now : Nat) (itemId : String) (tx : PlaidTx) (s : TxStore) :
    upsertTransaction now itemId tx s tx.transaction_id
      = some (match s tx.transaction_id with
              | none => insertRow now itemId tx (inheritedAlertedAt s tx)
              | some r => conflictUpdate now tx r) := by
  rw [upsertTransaction]
  simp only [if_pos rfl]
  cases s tx.transaction_id <;> rfl

theorem applyUpserts_present (now : Nat) (itemId : String) :
    ∀ (txs : List PlaidTx) (s : TxStore) (k : String),
      (∃ tx ∈ txs, tx.transaction_id = k) →
      ∃ r, applyUpserts now itemId txs s k = some r := by
  intro txs
  induction txs with
  | nil => rintro s k ⟨tx, h, _⟩; exact absurd h (List.not_mem_nil tx)
  | cons t rest ih =>
    intro s k h
    by_cases hrest : ∃ tx ∈ rest, tx.transaction_id = k
    · exact ih _ k hrest
    · have ht : t.transaction_id = k := by
        rcases h with ⟨tx, htx, hid⟩
        rcases List.mem_cons.mp htx with rfl | hmem
        · exact hid
        · exact absurd ⟨tx, hmem, hid⟩ hrest
      have hnone : ∀ tx ∈ rest, tx.transaction_id ≠ k := by
        intro tx htx he
        exact hrest ⟨tx, htx, he⟩
      have hstep : applyUpserts now itemId (t :: rest) s k
          = upsertTransaction now itemId t s k :=
        applyUpserts_other now itemId rest (upsertTransaction now itemId t s) k hnone
      rw [hstep, ← ht, upsertTransaction_self]
      exact ⟨_, rfl⟩

theorem applyUpserts_at_present (now : Nat) (itemId : String) :
    ∀ (txs : List PlaidTx) (s : TxStore) (k : String) (r : Row),
      s k = some r →
      applyUpserts now itemId txs s k = some (chainMerge now k txs r) := by
  intro txs
  induction txs with
  | nil => intro s k r h; exact h
  | cons t rest ih =>
    intro s k r h
    have hcons : applyUpserts now itemId (t :: rest) s k
        = applyUpserts now itemId rest (upsertTransaction now itemId t s) k := rfl
    by_cases ht : t.transaction_id = k
    · have h2 : s t.transaction_id = some r := by rw [ht]; exact h
      have hstep := upsertTransaction_self now itemId t s
      rw [h2] at hstep
      rw [ht] at hstep
      rw [hcons, ih _ k (conflictUpdate now t r) hstep]
      simp [chainMerge, ht]
    · have hstep : upsertTransaction now itemId t s k = s k :=
        upsertTransaction_other now itemId t s k (fun he => ht he.symm)
      rw [hcons, ih _ k r (hstep.trans h)]
      simp [chainMerge, ht]

theorem conflictUpdate_conflictUpdate (n m : Nat) (a b : PlaidTx) (r : Row) :
    conflictUpdate n a (conflictUpdate m b r) = conflictUpdate n a r := rfl

theorem conflictUpdate_insertRow (now : Nat) (itemId : String) (tx : PlaidTx)
    (inh : Option Nat) :
    conflictUpdate now tx (insertRow now itemId tx inh) = insertRow now itemId tx inh := rfl

theorem conflictUpdate_alertedAt (now : Nat) (tx : PlaidTx) (r : Row) :
    (conflictUpdate now tx r).alertedAt = r.alertedAt := rfl

theorem lastUpsertAt_eq_none :
    ∀ (txs : List PlaidTx) (k : String),
      lastUpsertAt txs k = none ↔ ∀ tx ∈ txs, tx.transaction_id ≠ k := by
  intro txs
  induction txs with
  | nil => intro k; simp [lastUpsertAt]
  | cons t rest ih =>
    intro k
    constructor
    · intro h tx htx
      rw [lastUpsertAt] at h
      cases hrest : lastUpsertAt rest k with
      | some u => rw [hrest] at h; exact absurd h (by simp)
      | none =>
        rw [hrest] at h
        rcases List.mem_cons.mp htx with rfl | hmem
        · intro he; rw [if_pos he] at h; exact absurd h (by simp)
        · exact (ih k).mp hrest tx hmem
    · intro h
      rw [lastUpsertAt]
      have hrest : lastUpsertAt rest k = none :=
        (ih k).mpr (fun tx htx => h tx (List.mem_cons_of_mem t htx))
      rw [hrest, if_neg (h t (List.mem_cons_self t rest))]

theorem lastUpsertAt_isSome (txs : List PlaidTx) (k : String)
    (h : ∃ tx ∈ txs, tx.transaction_id = k) :
    ∃ u, lastUpsertAt txs k = some u := by
  cases hl : lastUpsertAt txs k with
  | some u => exact ⟨u, rfl⟩
  | none =>
    rcases h with ⟨tx, htx, hid⟩
    exact absurd hid ((lastUpsertAt_eq_none txs k).mp hl tx htx)

theorem chainMerge_eq_last (now : Nat) :
    ∀ (txs : List PlaidTx) (k : String) (r : Row),
      chainMerge now k txs r
        = (match lastUpsertAt txs k with
           | none => r
           | some tx => conflictUpdate now tx r) := by
  intro txs
  induction txs with
  | nil => intro k r; rfl
  | cons t rest ih =>
    intro k r
    have hcons : chainMerge now k (t :: rest) r
        = chainMerge now k rest (if t.transaction_id = k then conflictUpdate now t r else r) :=
      rfl
    rw [hcons, ih k, lastUpsertAt]
    cases hrest : lastUpsertAt rest k with
    | some u =>
      by_cases ht : t.transaction_id = k
      · rw [if_pos ht]
        show conflictUpdate now u (conflictUpdate now t r) = conflictUpdate now u r
        exact conflictUpdate_conflictUpdate now now u t r
      · rw [if_neg ht]
    | none =>
      by_cases ht : t.transaction_id = k
      · rw [if_pos ht]
        show conflictUpdate now t r
            = (match (if t.transaction_id = k then some t else none) with
               | none => r
               | some tx => conflictUpdate now tx r)
        rw [if_pos ht]
      · rw [if_neg ht]
        show r = (match (if t.transaction_id = k then some t else none) with
                  | none => r
                  | some tx => conflictUpdate now tx r)
        rw [if_neg ht]

theorem chainMerge_alertedAt (now : Nat) :
    ∀ (txs : List PlaidTx) (k : String) (r : Row),
      (chainMerge now k txs r).alertedAt = r.alertedAt := by
  intro txs
  induction txs with
  | nil => intro k r; rfl
  | cons t rest ih =>
    intro k r
    have hcons : chainMerge now k (t :: rest) r
        = chainMerge now k rest (if t.transaction_id = k then conflictUpdate now t r else r) :=
      rfl
    rw [hcons, ih k]
    by_cases ht : t.transaction_id = k
    · rw [if_pos ht, conflictUpdate_alertedAt]
    · rw [if_neg ht]

theorem applyUpserts_last_absorbed (now : Nat) (itemId : String) :
    ∀ (txs : List PlaidTx) (s : TxStore) (k : String) (r : Row) (tx : PlaidTx),
      applyUpserts now itemId txs s k = some r →
      lastUpsertAt txs k = some tx →
      conflictUpdate now tx r = r := by
  intro txs
  induction txs with
  | nil => intro s k r tx _ h2; exact absurd h2 (by simp [lastUpsertAt])
  | cons t rest ih =>
    intro s k r tx h1 h2
    have hcons : applyUpserts now itemId (t :: rest) s k
        = applyUpserts now itemId rest (upsertTransaction now itemId t s) k := rfl
    rw [hcons] at h1
    rw [lastUpsertAt] at h2
    cases hrest : lastUpsertAt rest k with
    | some u =>
      rw [hrest] at h2
      have h2e : some u = some tx := h2
      injection h2e with h2e
      subst h2e
      exact ih _ k r u h1 hrest
    | none =>
      rw [hrest] at h2
      have h2e : (if t.transaction_id = k then some t else none) = some tx := h2
      have hne : ∀ u ∈ rest, u.transaction_id ≠ k := (lastUpsertAt_eq_none rest k).mp hrest
      by_cases ht : t.transaction_id = k
      · rw [if_pos ht] at h2e
        injection h2e with h2e
        subst h2e
        rw [applyUpserts_other now itemId rest _ k hne] at h1
        have hself := upsertTransaction_self now itemId t s
        rw [ht] at hself
        rw [hself] at h1
        injection h1 with hm
        cases hs : s k with
        | none =>
          rw [hs] at hm
          have hm2 : insertRow now itemId t (inheritedAlertedAt s t) = r := hm
          rw [← hm2]
          exact conflictUpdate_insertRow now itemId t _
        | some r0 =>
          rw [hs] at hm
          have hm2 : conflictUpdate now t r0 = r := hm
          rw [← hm2]
          exact conflictUpdate_conflictUpdate now now t t r0
      · rw [if_neg ht] at h2e
        exact absurd h2e (by simp)

theorem applyDeletes_not_mem :
    ∀ (removed : List String) (s : TxStore) (k : String),
      k ∉ removed → applyDeletes removed s k = s k := by
  intro removed
  induction removed with
  | nil => intro s k _; rfl
  | cons i rest ih =>
    intro s k hk
    have hki : k ≠ i := fun he => hk (he ▸ List.mem_cons_self i rest)
    have hkr : k ∉ rest := fun hm => hk (List.mem_cons_of_mem i hm)
    calc applyDeletes (i :: rest) s k
        = applyDeletes rest (deleteTransaction i s) k := rfl
      _ = deleteTransaction i s k := ih _ k hkr
      _ = s k := deleteTransaction_other i s k hki

theorem applyDeletes_mem :
    ∀ (removed : List String) (s : TxStore) (k : String),
      k ∈ removed → applyDeletes removed s k = none := by
  intro removed
  induction removed with
  | nil => intro s k hk; exact absurd hk (List.not_mem_nil k)
  | cons i rest ih =>
    intro s k hk
    by_cases hkr : k ∈ rest
    · exact ih _ k hkr
    · have hki : k = i := by
        rcases List.mem_cons.mp hk with he | hm
        · exact he
        · exact absurd hm hkr
      calc applyDeletes (i :: rest) s k
          = applyDeletes rest (deleteTransaction i s) k := rfl
        _ = deleteTransaction i s k := applyDeletes_not_mem rest _ k hkr
        _ = none := by rw [deleteTransaction, if_pos hki]

theorem applyBatch_eq (now : Nat) (itemId : String) (added modified : List PlaidTx)
    (removed : List String) (s : TxStore) :
    applyBatch now itemId added modified removed s
      = applyDeletes removed (applyUpserts now itemId (added ++ modified) s) := by
  rw [applyBatch, applyUpserts, applyDeletes, List.foldl_append]

/-! # Claim theorems -/

/-- C3: for every (added, modified, removed) batch and every starting store,
running the merge (steps 4–6: `upsertTransaction` for added and modified,
`deleteTransaction` for removed) twice with the identical batch yields the
same stored state as running it once; and for a surviving row, a re-applied
merge never overwrites `alertedAt` — in particular a claim
(`markTransactionAlerted`) performed between the two applications is kept.
Both merges are taken at the same step clock, matching the spec's notion of
"the same final stored state" (the `updatedAt` bookkeeping column is the
clock value of the last write). -/
theorem merge_idempotent_and_preserves_local_claims :
    ∀ (now : Nat) (itemId : String) (added modified : List PlaidTx)
      (removed : List String) (s : TxStore),
      applyBatch now itemId added modified removed
          (applyBatch now itemId added modified removed s)
        = applyBatch now itemId added modified removed s
      ∧ ∀ (k : String) (v : Nat) (r : Row),
          k ∉ removed →
          applyBatch now itemId added modified removed s k = some r →
          ((applyBatch now itemId added modified removed
              (markTransactionAlerted v k
                (applyBatch now itemId added modified removed s))) k).map Row.alertedAt
            = some (some v) := by
  intro now itemId added modified removed s
  constructor
  · funext k
    rw [applyBatch_eq, applyBatch_eq]
    by_cases hk : k ∈ removed
    · rw [applyDeletes_mem _ _ _ hk, applyDeletes_mem _ _ _ hk]
    · rw [applyDeletes_not_mem _ _ _ hk, applyDeletes_not_mem _ _ _ hk]
      by_cases hkL : ∃ tx ∈ added ++ modified, tx.transaction_id = k
      · obtain ⟨r, hr⟩ := applyUpserts_present now itemId _ s k hkL
        have hDr : applyDeletes removed
            (applyUpserts now itemId (added ++ modified) s) k = some r := by
          rw [applyDeletes_not_mem _ _ _ hk, hr]
        rw [applyUpserts_at_present now itemId _ _ k r hDr, hr]
        obtain ⟨u, hu⟩ := lastUpsertAt_isSome _ k hkL
        rw [chainMerge_eq_last, hu]
        show some (conflictUpdate now u r) = some r
        rw [applyUpserts_last_absorbed now itemId _ s k r u hr hu]
      · have hne : ∀ tx ∈ added ++ modified, tx.transaction_id ≠ k := by
          intro tx htx he
          exact hkL ⟨tx, htx, he⟩
        rw [applyUpserts_other now itemId _ _ k hne, applyDeletes_not_mem _ _ _ hk,
          applyUpserts_other now itemId _ _ k hne]
  · intro k v r hk hr
    rw [applyBatch_eq] at hr
    rw [applyBatch_eq, applyBatch_eq]
    have hm : markTransactionAlerted v k
        (applyDeletes removed (applyUpserts now itemId (added ++ modified) s)) k
        = some { r with alertedAt := some v } := by
      rw [markTransactionAlerted]
      simp [hr]
    rw [applyDeletes_not_mem _ _ _ hk]
    by_cases hkL : ∃ tx ∈ added ++ modified, tx.transaction_id = k
    · rw [applyUpserts_at_present now itemId _ _ k _ hm]
      simp [chainMerge_alertedAt]
    · have hne : ∀ tx ∈ added ++ modified, tx.transaction_id ≠ k := by
        intro tx htx he
        exact hkL ⟨tx, htx, he⟩
      rw [applyUpserts_other now itemId _ _ k hne, hm]
      rfl

/-- Witness for C3: a one-record batch inserted into an empty store, claimed
between the two applications; the second application keeps the claim. -/
theorem merge_idempotent_and_preserves_local_claims_witness :
    ((applyBatch 5 "item1" [samplePlaidTx "t1" 4 none] [] []
        (markTransactionAlerted 42 "t1"
          (applyBatch 5 "item1" [samplePlaidTx "t1" 4 none] [] [] (storeOf [])))) "t1").map
      Row.alertedAt = some (some 42) :=
  (merge_idempotent_and_preserves_local_claims 5 "item1" [samplePlaidTx "t1" 4 none] [] []
    (storeOf [])).2 "t1" 42 (insertRow 5 "item1" (samplePlaidTx "t1" 4 none) none)
    (by simp) (by decide)

/-- C1: evaluating `tryClaimTransactionForAlert` at a record that is already
claimed (`alertedAt = some 3`): the conditional update matches no row — the
store is left exactly as it was — yet the call returns `true`, because the
source derives its return value from a re-read of the row
(`tx?.alertedAt !== null`) instead of the update's affected-row count.  This
contradicts the function's own documentation ("Returns true if we
successfully claimed the transaction") and the claim that a second
`tryClaim` on an already-claimed record returns false. -/
theorem tryClaim_true_on_already_claimed_record :
    (tryClaimTransactionForAlert 10 "t1" (storeOf [sampleRow "t1" 5 (some 3)])).1 = true
    ∧ (tryClaimTransactionForAlert 10 "t1" (storeOf [sampleRow "t1" 5 (some 3)])).2 "t1"
        = some (sampleRow "t1" 5 (some 3)) := by
  constructor
  · decide
  · decide

/-- C5: merging an incoming record `tx` whose `pending_transaction_id` points
at a stored record with `alertedAt = some v` inserts `tx` with exactly that
`alertedAt` value — the insert itself carries the flag over, with no claim
call involved. -/
theorem upsert_inherits_alertedAt_from_superseded
    (now : Nat) (itemId : String) (s : TxStore) (tx : PlaidTx) (aId : String)
    (rA : Row) (v : Nat)
    (hsup : tx.pending_transaction_id = some aId)
    (hA : s aId = some rA) (hAv : rA.alertedAt = some v)
    (hfresh : s tx.transaction_id = none) :
    (upsertTransaction now itemId tx s) tx.transaction_id
      = some (insertRow now itemId tx (some v))
    ∧ (insertRow now itemId tx (some v)).alertedAt = some v := by
  refine ⟨?_, rfl⟩
  rw [upsertTransaction_self, hfresh]
  show some (insertRow now itemId tx (inheritedAlertedAt s tx)) = _
  rw [inheritedAlertedAt, hsup]
  show some (insertRow now itemId tx (match s aId with
    | some pr => pr.alertedAt
    | none => none)) = _
  rw [hA]
  show some (insertRow now itemId tx rA.alertedAt) = _
  rw [hAv]

/-- Witness for C5: record B supersedes record A, which is stored with
`alertedAt = some 7`; B is inserted already carrying `some 7`. -/
theorem upsert_inherits_alertedAt_from_superseded_witness :
    (upsertTransaction 9 "item1" (samplePlaidTx "B" 4 (some "A"))
        (storeOf [sampleRow "A" 5 (some 7)])) "B"
      = some (insertRow 9 "item1" (samplePlaidTx "B" 4 (some "A")) (some 7))
    ∧ (insertRow 9 "item1" (samplePlaidTx "B" 4 (some "A")) (some 7)).alertedAt = some 7 :=
  upsert_inherits_alertedAt_from_superseded 9 "item1" (storeOf [sampleRow "A" 5 (some 7)])
    (samplePlaidTx "B" 4 (some "A")) "A" (sampleRow "A" 5 (some 7)) 7 rfl (by decide) rfl
    (by decide)

/-- C10: (i) every row `getUnalertedSpendingTransactions` selects has a
strictly positive amount and a null `alertedAt` at selection time;
(ii) `sendTransactionAlertWorkflow` returns before any effect — no AI
generation call, no dispatch — on a transaction with `amount ≤ 0`;
(iii) every effect `processNewTransactions` produces originates from a
transaction with strictly positive amount (non-spending records are
filtered out before the per-transaction alert body runs). -/
theorem alert_paths_select_positive_unalerted_only :
    (∀ (transactionIds : List String) (s : TxStore) (tx : Row),
        tx ∈ getUnalertedSpendingTransactions transactionIds s →
        0 < tx.amount ∧ tx.alertedAt = none)
    ∧ (∀ (gen : Row → String) (tx : Row), tx.amount ≤ 0 →
        sendTransactionAlertWorkflow gen tx = [])
    ∧ (∀ (gen : Row → String) (txs : List Row) (e : AlertStep),
        e ∈ processNewTransactions gen txs →
        ∃ tx ∈ txs, 0 < tx.amount ∧ e ∈ alertStepsFor gen tx) := by
  refine ⟨?_, ?_, ?_⟩
  · intro transactionIds s tx htx
    rw [getUnalertedSpendingTransactions] at htx
    by_cases hids : transactionIds = []
    · rw [if_pos hids] at htx
      exact absurd htx (List.not_mem_nil tx)
    · rw [if_neg hids] at htx
      rcases List.mem_filterMap.mp htx with ⟨i, _, hmatch⟩
      cases hs : s i with
      | none =>
        rw [hs] at hmatch
        exact absurd hmatch (by simp)
      | some r =>
        rw [hs] at hmatch
        have hm2 : (if 0 < r.amount ∧ r.alertedAt = none then some r else none)
            = some tx := hmatch
        by_cases hcond : 0 < r.amount ∧ r.alertedAt = none
        · rw [if_pos hcond] at hm2
          injection hm2 with hm2
          exact hm2 ▸ hcond
        · rw [if_neg hcond] at hm2
          exact absurd hm2 (by simp)
  · intro gen tx h
    rw [sendTransactionAlertWorkflow, if_pos h]
  · intro gen txs e he
    rw [processNewTransactions] at he
    rcases List.mem_flatMap.mp he with ⟨tx, htx, hstep⟩
    rcases List.mem_filter.mp htx with ⟨hmem, hpos⟩
    exact ⟨tx, hmem, by exact_mod_cast of_decide_eq_true hpos, hstep⟩

/-- Witness for C10: a positive unalerted row is selected with the selection
facts holding, and a refund (amount −2) makes the alert workflow a no-op. -/
theorem alert_paths_select_positive_unalerted_only_witness :
    (0 < (sampleRow "t1" 5 none).amount ∧ (sampleRow "t1" 5 none).alertedAt = none)
    ∧ sendTransactionAlertWorkflow (fun _ => "hello") (sampleRow "t2" (-2) none) = [] :=
  ⟨alert_paths_select_positive_unalerted_only.1 ["t1"] (storeOf [sampleRow "t1" 5 none])
      (sampleRow "t1" 5 none) (by decide),
    alert_paths_select_positive_unalerted_only.2.1 (fun _ => "hello")
      (sampleRow "t2" (-2) none) (by decide)⟩

/-- C2 counterexample: the transaction-sync workflow writes the cursor as its
first store-mutating step (source comment: update the cursor IMMEDIATELY,
before processing transactions).  Crashing after that single step (`k = 1`)
leaves the cursor advanced to the fetched batch's next token while the
batch's added record is still unmerged — refuting "the cursor is written
only after the records of the page(s) it covers have been fully merged". -/
theorem sync_cursor_advanced_with_record_unmerged :
    (runSyncPrefix 7 "item1"
        { added := [samplePlaidTx "t1" 5 none], modified := [], removed := [],
          cursor := some "c2" } 1
        { cursor := some "c1", store := storeOf [] }).cursor = some "c2"
    ∧ (runSyncPrefix 7 "item1"
        { added := [samplePlaidTx "t1" 5 none], modified := [], removed := [],
          cursor := some "c2" } 1
        { cursor := some "c1", store := storeOf [] }).store "t1" = none :=
  ⟨rfl, rfl⟩

theorem foldl_no_setCursor_cursor (now : Nat) (itemId : String) :
    ∀ (ops : List SyncOp) (st : SyncState),
      (∀ c, SyncOp.setCursor c ∉ ops) →
      (ops.foldl (applySyncOp now itemId) st).cursor = st.cursor := by
  intro ops
  induction ops with
  | nil => intro st _; rfl
  | cons op rest ih =>
    intro st h
    have hrest : ∀ c, SyncOp.setCursor c ∉ rest :=
      fun c hc => h c (List.mem_cons_of_mem _ hc)
    have hstep : (applySyncOp now itemId st op).cursor = st.cursor := by
      cases op with
      | setCursor c => exact absurd (List.mem_cons_self _ _) (h c)
      | upsert tx => rfl
      | remove i => rfl
    calc ((op :: rest).foldl (applySyncOp now itemId) st).cursor
        = (rest.foldl (applySyncOp now itemId) (applySyncOp now itemId st op)).cursor := rfl
      _ = (applySyncOp now itemId st op).cursor := ih _ hrest
      _ = st.cursor := hstep

/-- C2 amended: when the fetch produced a next token, the cited
transaction-sync workflow writes it in its very first store-mutating step —
before any record of the batch is merged — so after any non-empty executed
prefix the stored cursor is already the new token.  (A crash between that
write and the merge therefore skips the fetched-but-unmerged records on
retry, the inverse of the claimed ordering; a crash before any step — `k = 0`
— leaves the state untouched by definition.) -/
theorem sync_cursor_written_first (now : Nat) (itemId : String) (res : SyncResult)
    (st : SyncState) (c : String) (k : Nat)
    (hc : res.cursor = some c) (hk : 1 ≤ k) :
    (runSyncPrefix now itemId res k st).cursor = some c := by
  obtain ⟨j, rfl⟩ : ∃ j, k = j + 1 := ⟨k - 1, (Nat.succ_pred_eq_of_pos hk).symm⟩
  rw [runSyncPrefix, syncOps, hc, List.singleton_append, List.cons_append,
    List.cons_append, List.take_succ_cons]
  show ((List.take j _).foldl (applySyncOp now itemId)
      (applySyncOp now itemId st (SyncOp.setCursor c))).cursor = some c
  rw [foldl_no_setCursor_cursor]
  · rfl
  · intro c2 hc2
    have hmem := List.mem_of_mem_take hc2
    rcases List.mem_append.mp hmem with hmem1 | hmem2
    · rcases List.mem_append.mp hmem1 with hmap | hmap
      · rcases List.mem_map.mp hmap with ⟨x, _, hx⟩
        exact SyncOp.noConfusion hx
      · rcases List.mem_map.mp hmap with ⟨x, _, hx⟩
        exact SyncOp.noConfusion hx
    · rcases List.mem_map.mp hmem2 with ⟨x, _, hx⟩
      exact SyncOp.noConfusion hx

/-- Witness for C2's amended statement: running two steps of the concrete
sync leaves the cursor at the new token. -/
theorem sync_cursor_written_first_witness :
    (runSyncPrefix 7 "item1"
        { added := [samplePlaidTx "t1" 5 none], modified := [], removed := [],
          cursor := some "c2" } 2
        { cursor := some "c1", store := storeOf [] }).cursor = some "c2" :=
  sync_cursor_written_first 7 "item1"
    { added := [samplePlaidTx "t1" 5 none], modified := [], removed := [],
      cursor := some "c2" }
    { cursor := some "c1", store := storeOf [] } "c2" 2 rfl (by decide)

theorem tryClaim_snd_other (now : Nat) (i : String) (s : TxStore) (k : String)
    (hk : k ≠ i) : (tryClaimTransactionForAlert now i s).2 k = s k := by
  rw [tryClaimTransactionForAlert]
  simp [hk]

theorem unmark_other (i : String) (s : TxStore) (k : String) (hk : k ≠ i) :
    unmarkTransactionAlerted i s k = s k := by
  rw [unmarkTransactionAlerted]
  simp [hk]

theorem tryClaim_fst_true (now : Nat) (i : String) (s : TxStore) :
    (tryClaimTransactionForAlert now i s).1 = true := by
  rw [tryClaimTransactionForAlert]
  simp only
  cases hs : s i with
  | none => simp [hs]
  | some r =>
    by_cases ha : r.alertedAt = none
    · simp [hs, ha]
    · simp [hs, ha, Option.isSome_iff_ne_none]

theorem alertStepFn_other (now : Nat) (send : Row → Bool) (st : TxStore) (tx : Row)
    (k : String) (hk : k ≠ tx.id) : alertStepFn now send st tx k = st k := by
  rw [alertStepFn]
  by_cases h1 : (tryClaimTransactionForAlert now tx.id st).1
  · rw [if_pos h1]
    by_cases h2 : send tx
    · rw [if_pos h2]
      exact tryClaim_snd_other now tx.id st k hk
    · rw [if_neg h2, unmark_other tx.id _ k hk]
      exact tryClaim_snd_other now tx.id st k hk
  · rw [if_neg h1]
    exact tryClaim_snd_other now tx.id st k hk

theorem alertStepFn_clears (now : Nat) (send : Row → Bool) (st : TxStore) (tx : Row)
    (hsend : send tx = false) :
    ∀ r, (alertStepFn now send st tx) tx.id = some r → r.alertedAt = none := by
  intro r h
  rw [alertStepFn] at h
  rw [tryClaim_fst_true now tx.id st, if_pos rfl, hsend] at h
  rw [if_neg (by simp)] at h
  rw [unmarkTransactionAlerted] at h
  simp only [if_pos rfl] at h
  rcases Option.map_eq_some'.mp h with ⟨r0, _, hf⟩
  rw [← hf]

theorem alertStepFn_preserves_clear (now : Nat) (send : Row → Bool) (st : TxStore)
    (t : Row) (k : String) (h : t.id = k → send t = false)
    (hclear : ∀ r, st k = some r → r.alertedAt = none) :
    ∀ r, (alertStepFn now send st t) k = some r → r.alertedAt = none := by
  by_cases hk : t.id = k
  · subst hk
    exact alertStepFn_clears now send st t (h rfl)
  · intro r hr
    rw [alertStepFn_other now send st t k (fun he => hk he.symm)] at hr
    exact hclear r hr

theorem alertLoop_preserves_clear (now : Nat) (send : Row → Bool) :
    ∀ (txs : List Row) (st : TxStore) (k : String),
      (∀ t ∈ txs, t.id = k → send t = false) →
      (∀ r, st k = some r → r.alertedAt = none) →
      ∀ r, (alertLoop now send txs st) k = some r → r.alertedAt = none := by
  intro txs
  induction txs with
  | nil => intro st k _ hclear; exact hclear
  | cons t rest ih =>
    intro st k hsend hclear
    have hcons : alertLoop now send (t :: rest) st
        = alertLoop now send rest (alertStepFn now send st t) := rfl
    rw [hcons]
    exact ih _ k (fun u hu => hsend u (List.mem_cons_of_mem t hu))
      (alertStepFn_preserves_clear now send st t k
        (hsend t (List.mem_cons_self t rest)) hclear)

/-- C9: in the alert loop of `transactionSyncWorkflow`, whenever the delivery
attempt for a transaction reports failure (`send` is `false` for every entry
carrying that id), the loop's `unmarkTransactionAlerted` rollback runs after
the claim, so the final store holds the record un-claimed
(`alertedAt = none`) — ready for a future sync pass to retry. -/
theorem failed_delivery_rolls_back_claim :
    ∀ (now : Nat) (send : Row → Bool) (txs : List Row) (s : TxStore) (tx : Row),
      tx ∈ txs → (∀ t ∈ txs, t.id = tx.id → send t = false) →
      ∀ r, (alertLoop now send txs s) tx.id = some r → r.alertedAt = none := by
  intro now send txs
  induction txs with
  | nil => intro s tx hmem _; exact absurd hmem (List.not_mem_nil tx)
  | cons t rest ih =>
    intro s tx hmem hsend
    have hcons : alertLoop now send (t :: rest) s
        = alertLoop now send rest (alertStepFn now send s t) := rfl
    rw [hcons]
    by_cases hmr : tx ∈ rest
    · exact ih _ tx hmr (fun u hu => hsend u (List.mem_cons_of_mem t hu))
    · have htx : t = tx := by
        rcases List.mem_cons.mp hmem with he | hm
        · exact he.symm
        · exact absurd hm hmr
      subst htx
      exact alertLoop_preserves_clear now send rest _ t.id
        (fun u hu hid => hsend u (List.mem_cons_of_mem t hu) hid)
        (alertStepFn_clears now send s t (hsend t (List.mem_cons_self t rest) rfl))

/-- Witness for C9: a single spending transaction whose delivery fails ends
with `alertedAt` back at null. -/
theorem failed_delivery_rolls_back_claim_witness :
    ((alertLoop 3 (fun _ => false) [sampleRow "t1" 5 none]
        (storeOf [sampleRow "t1" 5 none])) "t1").map Row.alertedAt = some none := by
  have h := failed_delivery_rolls_back_claim 3 (fun _ => false) [sampleRow "t1" 5 none]
    (storeOf [sampleRow "t1" 5 none]) (sampleRow "t1" 5 none) (by simp)
    (fun t _ _ => rfl)
  cases hev : (alertLoop 3 (fun _ => false) [sampleRow "t1" 5 none]
      (storeOf [sampleRow "t1" 5 none])) "t1" with
  | none => exact absurd hev (by decide)
  | some r => rw [Option.map_some', h r hev]

theorem claimSelect_props (now1 : Nat) (phoneNumber : String) (s : MsgStore)
    (buffer : PMRow) (h : claimSelect now1 phoneNumber s = some buffer) :
    buffer ∈ s ∧ buffer.phoneNumber = phoneNumber ∧ buffer.processedAt = none := by
  rw [claimSelect] at h
  have hmem := List.mem_of_find?_eq_some h
  have hp := List.find?_some h
  simp only [Bool.and_eq_true, beq_iff_eq, Option.isNone_iff_eq_none,
    decide_eq_true_eq] at hp
  exact ⟨hmem, hp.1.1, hp.1.2⟩

theorem claimSelect_after_claimMark (now1 : Nat) (phoneNumber : String) (s : MsgStore)
    (buffer : PMRow) (hinv : atMostOneUnclaimed phoneNumber s)
    (hsel : claimSelect now1 phoneNumber s = some buffer) :
    ∀ now2, claimSelect now2 phoneNumber (claimMark now1 buffer s) = none := by
  intro now2
  rw [claimSelect, List.find?_eq_none]
  intro b hb
  rw [claimMark] at hb
  rcases List.mem_map.mp hb with ⟨b0, hb0, hfb⟩
  by_cases hid : b0.id = buffer.id
  · rw [if_pos hid] at hfb
    intro habs
    rw [← hfb] at habs
    simp at habs
  · rw [if_neg hid] at hfb
    subst hfb
    intro habs
    simp only [Bool.and_eq_true, beq_iff_eq, Option.isNone_iff_eq_none,
      decide_eq_true_eq] at habs
    obtain ⟨⟨hph, hun⟩, _⟩ := habs
    obtain ⟨hbm, hbph, hbun⟩ := claimSelect_props now1 phoneNumber s buffer hsel
    exact hid (congrArg PMRow.id (hinv b0 hb0 buffer hbm hph hun hbph hbun))

/-- C6: once a `processBufferedMessages` call has claimed the phone number's
wave (returned a non-empty batch), any later call for the same key before a
new event arrives finds no unclaimed ready buffer: it returns no batch and
leaves the store exactly as it was — safe to invoke speculatively from
racing triggers as long as the calls are serialized.  The hypothesis is the
shape `bufferMessage` maintains: at most one unclaimed buffer row per
phone number. -/
theorem second_claim_returns_empty_and_unchanged :
    ∀ (now1 now2 : Nat) (phoneNumber : String) (s : MsgStore)
      (batch : List BufferedMessage) (s1 : MsgStore),
      atMostOneUnclaimed phoneNumber s →
      processBufferedMessages now1 phoneNumber s = (some batch, s1) →
      processBufferedMessages now2 phoneNumber s1 = (none, s1) := by
  intro now1 now2 phoneNumber s batch s1 hinv h1
  rw [processBufferedMessages] at h1
  cases hsel : claimSelect now1 phoneNumber s with
  | none =>
    rw [hsel] at h1
    exact absurd (congrArg Prod.fst h1) (by simp)
  | some buffer =>
    rw [hsel] at h1
    have hs1 : claimMark now1 buffer s = s1 := congrArg Prod.snd h1
    rw [processBufferedMessages, ← hs1,
      claimSelect_after_claimMark now1 phoneNumber s buffer hinv hsel now2]

/-- Witness for C6: the claimed sample store yields an empty second claim and
an unchanged store. -/
theorem second_claim_returns_empty_and_unchanged_witness :
    processBufferedMessages 9999 "p" claimedSampleStore = (none, claimedSampleStore) :=
  second_claim_returns_empty_and_unchanged 3000 9999 "p" [sampleBuffer] [sampleMsg 0]
    claimedSampleStore (by decide) (by decide)

/-- C4 counterexample: two callers of `processBufferedMessages` whose select
round trips both run before either caller's mark round trip (the claim is a
separate `SELECT ... LIMIT 1` followed by an unconditional
`UPDATE ... WHERE id = ?`, not one atomic conditional update, so nothing in
the store serializes the two callers): both callers obtain the same
non-empty batch, refuting "exactly one caller obtains the non-empty batch
and every other concurrent caller obtains an empty result". -/
theorem overlapped_claims_both_get_batch :
    (twoCallerOverlappedClaim 3000 3000 "p" [sampleBuffer]).1 = some [sampleMsg 0]
    ∧ (twoCallerOverlappedClaim 3000 3000 "p" [sampleBuffer]).2.1 = some [sampleMsg 0] := by
  decide

/-- C4 amended: the claim step is a select followed by a separate
unconditional mark, so exclusivity holds only for serialized executions:
of two `processBufferedMessages` calls where the second runs entirely after
the first, at most one obtains a batch (and a caller that obtains none
leaves the store untouched by construction). -/
theorem serialized_claims_exclusive :
    ∀ (now1 now2 : Nat) (phoneNumber : String) (s : MsgStore),
      atMostOneUnclaimed phoneNumber s →
      ¬((processBufferedMessages now1 phoneNumber s).1.isSome = true ∧
        (processBufferedMessages now2 phoneNumber
          ((processBufferedMessages now1 phoneNumber s).2)).1.isSome = true) := by
  rintro now1 now2 phoneNumber s hinv ⟨h1, h2⟩
  cases hsel : claimSelect now1 phoneNumber s with
  | none =>
    rw [processBufferedMessages, hsel] at h1
    simp at h1
  | some buffer =>
    have hsnd : (processBufferedMessages now1 phoneNumber s).2
        = claimMark now1 buffer s := by
      rw [processBufferedMessages, hsel]
    rw [hsnd, processBufferedMessages,
      claimSelect_after_claimMark now1 phoneNumber s buffer hinv hsel now2] at h2
    simp at h2

/-- Witness for C4's amended statement at the concrete waiting buffer. -/
theorem serialized_claims_exclusive_witness :
    ¬((processBufferedMessages 3000 "p" [sampleBuffer]).1.isSome = true ∧
      (processBufferedMessages 4000 "p"
        ((processBufferedMessages 3000 "p" [sampleBuffer]).2)).1.isSome = true) :=
  serialized_claims_exclusive 3000 4000 "p" [sampleBuffer] (by decide)

/-- C7 counterexample: delivering a further event for a phone number that
already has an unclaimed buffer row leaves the row count unchanged (no new
row is inserted) and changes the store (the existing row is mutated by the
JSON append and the deadline reset) — refuting "only inserts another
pending-event row; no existing pending-event row is mutated". -/
theorem buffered_event_mutates_existing_row :
    (bufferMessage 100 "b2" "p" "again" "m2" none none none [sampleBuffer]).length
        = ([sampleBuffer] : MsgStore).length
    ∧ bufferMessage 100 "b2" "p" "again" "m2" none none none [sampleBuffer]
        ≠ [sampleBuffer] := by
  decide

/-- C7 amended: when an unclaimed buffer row for the key exists, a further
event is folded into that row in place — its message list gets the event
appended and its debounce deadline is reset — no row is inserted or removed,
every row with a different id is untouched, and the mutated row's claim flag
(`processedAt`), identity and creation data are unchanged. -/
theorem buffer_append_in_place :
    ∀ (now : Nat) (newId phoneNumber text messageId : String)
      (imgs : Option (List String)) (isR : Option Bool) (rT : Option String)
      (s : MsgStore) (buffer : PMRow),
      s.find? (fun b => b.phoneNumber == phoneNumber && b.processedAt.isNone)
        = some buffer →
      (bufferMessage now newId phoneNumber text messageId imgs isR rT s).length = s.length
      ∧ ∀ i : Nat,
          (bufferMessage now newId phoneNumber text messageId imgs isR rT s)[i]?
            = (s[i]?).map fun b =>
                if b.id = buffer.id then
                  { b with
                    messages := b.messages ++
                      [{ text := text, messageId := messageId, timestamp := now,
                         imageUrls := imgs, isReaction := isR, reactionType := rT }]
                    processingAt := now + DEBOUNCE_DELAY_MS
                    updatedAt := now }
                else b := by
  intro now newId phoneNumber text messageId imgs isR rT s buffer h
  constructor
  · simp only [bufferMessage, h]
    exact List.length_map s _
  · intro i
    simp only [bufferMessage, h]
    exact List.getElem?_map _ s i

/-- Witness for C7's amended statement at the concrete waiting buffer. -/
theorem buffer_append_in_place_witness :
    (bufferMessage 100 "b2" "p" "x" "m2" none none none [sampleBuffer]).length = 1
    ∧ (bufferMessage 100 "b2" "p" "x" "m2" none none none [sampleBuffer])[0]?
        = some { sampleBuffer with
                 messages := [sampleMsg 0] ++
                   [{ text := "x", messageId := "m2", timestamp := 100,
                      imageUrls := none, isReaction := none, reactionType := none }]
                 processingAt := 2100
                 updatedAt := 100 } := by
  have h := buffer_append_in_place 100 "b2" "p" "x" "m2" none none none [sampleBuffer]
    sampleBuffer (by decide)
  exact ⟨h.1, (h.2 0).trans (by decide)⟩

theorem burstMsgs_length : ∀ k, (burstMsgs k).length = k + 1 := by
  intro k
  induction k with
  | zero => rfl
  | succ k ih =>
    show (burstMsgs k ++ [burstMsg (k + 1)]).length = k + 1 + 1
    rw [List.length_append, ih]
    rfl

theorem burstMsgs_head : ∀ k, (burstMsgs k)[0]? = some (burstMsg 0) := by
  intro k
  induction k with
  | zero => rfl
  | succ k ih =>
    show (burstMsgs k ++ [burstMsg (k + 1)])[0]? = some (burstMsg 0)
    rw [List.getElem?_append_left (by rw [burstMsgs_length]; omega), ih]

theorem burstState_eq : ∀ k, burstState k = [burstRow k] := by
  intro k
  induction k with
  | zero => decide
  | succ k ih =>
    show (processBufferedMessages (1900 * k + 2100) "p"
        (bufferMessage (1900 * (k + 1)) "b0" "p" "hi" "m" none none none
          (burstState k))).2
      = [burstRow (k + 1)]
    rw [ih]
    have hfind : ([burstRow k] : MsgStore).find?
        (fun b => b.phoneNumber == "p" && b.processedAt.isNone) = some (burstRow k) :=
      List.find?_cons_of_pos _ (by rfl)
    have hrow : bufferMessage (1900 * (k + 1)) "b0" "p" "hi" "m" none none none
        [burstRow k] = [burstRow (k + 1)] := by
      simp only [bufferMessage, hfind]
      rw [List.map_singleton, if_pos rfl]
      rfl
    rw [hrow]
    have hsel : claimSelect (1900 * k + 2100) "p" [burstRow (k + 1)] = none := by
      rw [claimSelect, List.find?_eq_none]
      intro b hb
      rcases List.mem_singleton.mp hb with rfl
      intro habs
      simp only [Bool.and_eq_true, beq_iff_eq, Option.isNone_iff_eq_none,
        decide_eq_true_eq] at habs
      have hge : ¬((burstRow (k + 1)).processingAt < 1900 * k + 2100) := by
        show ¬(1900 * (k + 1) + 2000 < 1900 * k + 2100)
        omega
      exact hge habs.2
    rw [processBufferedMessages, hsel]

/-- C8 amended: the webhook has no maximum-wait force flush.  Under the
sustained burst (a new event every 1900 ms, each arrival resetting the
debounce deadline 2000 ms ahead and scheduling a check 2100 ms later),
after every arrival-and-check round the key still has exactly one buffer
row, it is still unclaimed (`processedAt = none`), it has absorbed every
event so far, and the first event (arrival time 0) is still sitting in it —
for all `k`, so the oldest unclaimed event's age (1900·k + 2100 at the
latest check) grows without bound and no flush ever happens while the burst
continues.  A group is claimed only once a check finds the deadline passed,
i.e. only after the arrivals pause for the full debounce window. -/
theorem sustained_burst_never_flushed :
    ∀ k, (burstState k).length = 1
      ∧ ∀ b ∈ burstState k, b.processedAt = none ∧ b.messages.length = k + 1
          ∧ b.messages[0]? = some (burstMsg 0) := by
  intro k
  rw [burstState_eq]
  refine ⟨rfl, ?_⟩
  intro b hb
  rcases List.mem_singleton.mp hb with rfl
  exact ⟨rfl, burstMsgs_length k, burstMsgs_head k⟩

/-- C8 counterexample: after the burst's check at t = 11600 ms the single
buffer row is still unclaimed and still holds the event that arrived at
t = 0, whose age (11600 ms) already exceeds the spec's example maximum wait
of 10 s — refuting "an unclaimed event never remains unflushed beyond
Tmax". -/
theorem burst_event_unflushed_beyond_max_wait :
    burstState 6 = [burstRow 6] ∧ (burstRow 6).processedAt = none
    ∧ (burstRow 6).messages.length = 7
    ∧ (burstRow 6).messages[0]? = some (burstMsg 0)
    ∧ 10000 < 1900 * 5 + 2100 := by
  decide

/-- Witness for C8's amended statement at round 3 of the burst. -/
theorem sustained_burst_never_flushed_witness :
    (burstState 3).length = 1
    ∧ ((burstRow 3).processedAt = none ∧ (burstRow 3).messages.length = 3 + 1
        ∧ (burstRow 3).messages[0]? = some (burstMsg 0)) :=
  ⟨(sustained_burst_never_flushed 3).1,
    (sustained_burst_never_flushed 3).2 (burstRow 3) (by rw [burstState_eq]; decide)⟩

theorem find?_none_no_unclaimed (q : String) (s : MsgStore)
    (hfind : s.find? (fun b => b.phoneNumber == q && b.processedAt.isNone) = none) :
    ∀ b ∈ s, b.phoneNumber = q → b.processedAt = none → False := by
  intro b hb hph hun
  have := List.find?_eq_none.mp hfind b hb
  simp [hph, hun] at this

/-- `bufferMessage` maintains the at-most-one-unclaimed-row-per-key shape:
the append arm mutates rows in place, and the insert arm fires only when the
key has no unclaimed row at all. -/
theorem bufferMessage_preserves_atMostOneUnclaimed
    (now : Nat) (newId q text messageId : String) (imgs : Option (List String))
    (isR : Option Bool) (rT : Option String) (s : MsgStore) (p : String)
    (hinv : atMostOneUnclaimed p s) :
    atMostOneUnclaimed p (bufferMessage now newId q text messageId imgs isR rT s) := by
  rw [bufferMessage]
  cases hfind : s.find? (fun b => b.phoneNumber == q && b.processedAt.isNone) with
  | some buffer =>
    intro b1 hb1 b2 hb2 h1p h1u h2p h2u
    rcases List.mem_map.mp hb1 with ⟨a1, ha1, hf1⟩
    rcases List.mem_map.mp hb2 with ⟨a2, ha2, hf2⟩
    have hinfo : ∀ a : PMRow,
        (if a.id = buffer.id then
          { a with
            messages := a.messages ++
              [{ text := text, messageId := messageId, timestamp := now,
                 imageUrls := imgs, isReaction := isR, reactionType := rT }]
            processingAt := now + DEBOUNCE_DELAY_MS
            updatedAt := now }
         else a).phoneNumber = a.phoneNumber
        ∧ (if a.id = buffer.id then
            { a with
              messages := a.messages ++
                [{ text := text, messageId := messageId, timestamp := now,
                   imageUrls := imgs, isReaction := isR, reactionType := rT }]
              processingAt := now + DEBOUNCE_DELAY_MS
              updatedAt := now }
           else a).processedAt = a.processedAt := by
      intro a
      by_cases ha : a.id = buffer.id
      · rw [if_pos ha]; exact ⟨rfl, rfl⟩
      · rw [if_neg ha]; exact ⟨rfl, rfl⟩
    rw [← hf1] at h1p h1u
    rw [← hf2] at h2p h2u
    rw [(hinfo a1).1] at h1p
    rw [(hinfo a1).2] at h1u
    rw [(hinfo a2).1] at h2p
    rw [(hinfo a2).2] at h2u
    rw [← hf1, ← hf2, hinv a1 ha1 a2 ha2 h1p h1u h2p h2u]
  | none =>
    intro b1 hb1 b2 hb2 h1p h1u h2p h2u
    rcases List.mem_append.mp hb1 with h1s | h1n
    · rcases List.mem_append.mp hb2 with h2s | h2n
      · exact hinv b1 h1s b2 h2s h1p h1u h2p h2u
      · rcases List.mem_singleton.mp h2n with rfl
        have hq : p = q := h2p.symm
        exact (find?_none_no_unclaimed q s hfind b1 h1s (hq ▸ h1p) h1u).elim
    · rcases List.mem_singleton.mp h1n with rfl
      rcases List.mem_append.mp hb2 with h2s | h2n
      · have hq : p = q := h1p.symm
        exact (find?_none_no_unclaimed q s hfind b2 h2s (hq ▸ h2p) h2u).elim
      · rcases List.mem_singleton.mp h2n with rfl
        rfl

/-- The claim step also maintains the shape: it only moves rows out of the
unclaimed set. -/
theorem processBufferedMessages_preserves_atMostOneUnclaimed
    (now : Nat) (q : String) (s : MsgStore) (p : String)
    (hinv : atMostOneUnclaimed p s) :
    atMostOneUnclaimed p (processBufferedMessages now q s).2 := by
  rw [processBufferedMessages]
  cases hsel : claimSelect now q s with
  | none => exact hinv
  | some buffer =>
    intro b1 hb1 b2 hb2 h1p h1u h2p h2u
    have hb1m : b1 ∈ claimMark now buffer s := hb1
    have hb2m : b2 ∈ claimMark now buffer s := hb2
    simp only [claimMark] at hb1m hb2m
    rcases List.mem_map.mp hb1m with ⟨a1, ha1, hf1⟩
    rcases List.mem_map.mp hb2m with ⟨a2, ha2, hf2⟩
    have he1 : b1 = a1 := by
      by_cases ha : a1.id = buffer.id
      · rw [if_pos ha] at hf1
        rw [← hf1] at h1u
        exact absurd h1u (by simp)
      · rw [if_neg ha] at hf1; exact hf1.symm
    have he2 : b2 = a2 := by
      by_cases ha : a2.id = buffer.id
      · rw [if_pos ha] at hf2
        rw [← hf2] at h2u
        exact absurd h2u (by simp)
      · rw [if_neg ha] at hf2; exact hf2.symm
    rw [he1, he2]
    exact hinv a1 ha1 a2 ha2 (he1 ▸ h1p) (he1 ▸ h1u) (he2 ▸ h2p) (he2 ▸ h2u)
